import Mathlib

/-!
Shallow embedding of the smoke-test validation pipeline of the
BitcoinDuneQueries repository (scripts/validators.py, scripts/dune_client.py,
scripts/smoke_runner.py), together with proofs of the specification claims.

Modelling conventions:
* Python values appearing in result rows and validation details are modelled
  by the inductive type `PyVal`; Python `None` is `PyVal.null`.
* Python numbers (int and float) are modelled by `Int` and `Rat`; `float(x)`
  coercion is `pyFloat`, which parses numeric strings with a decimal grammar
  (optional sign, digits, optional fractional part) and fails on anything
  else, matching CPython on the inputs the pipeline sees.
* Python exceptions are modelled by `Except PyErr`; the external collaborators
  of the orchestrator (the SQL file loader and the remote execution client)
  are fields of an `Env` record so that theorems quantify over all their
  behaviours.  The registry is the immutable snapshot obtained from
  `load_registry`.
* Strings manipulated character-wise (SQL text) are modelled as `List Char`.
-/

/-- Python-like dynamic value: the payload type of result rows and of the
`details` dictionaries of validation results. -/
inductive PyVal where
  | null
  | bool (b : Bool)
  | int (n : Int)
  | num (q : Rat)
  | str (s : String)
  | list (xs : List PyVal)
  | dict (xs : List (String × PyVal))

/-- A result row: a Python dict mapping column names to values. -/
def Row : Type := List (String × PyVal)

/-- Python `row.get(column)`: `None` when the key is absent. -/
def rowGet (row : Row) (column : String) : PyVal :=
  match List.lookup column row with
  | some v => v
  | none => PyVal.null

/-- Python `v is None` on a row value. -/
def isNull : PyVal → Bool
  | PyVal.null => true
  | _ => false

/-- Numeric value of a decimal digit character, if it is one. -/
def digitVal (c : Char) : Option Nat :=
  if 48 ≤ c.toNat ∧ c.toNat ≤ 57 then some (c.toNat - 48) else none

/-- Natural number denoted by a list of digit characters (most significant
first), used by the decimal parser. -/
def natOfDigits (ds : List Char) : Nat :=
  ds.foldl (fun a c => 10 * a + (c.toNat - 48)) 0

/-- Parse an unsigned decimal literal `digits[.digits]`; at least one digit
must be present, and nothing may follow. -/
def parseUnsigned (cs : List Char) : Option Rat :=
  let ds := cs.takeWhile Char.isDigit
  let rest := cs.dropWhile Char.isDigit
  match rest with
  | [] => if ds.isEmpty then none else some (natOfDigits ds)
  | c :: rest2 =>
    if c = '.' then
      let fs := rest2.takeWhile Char.isDigit
      let rest3 := rest2.dropWhile Char.isDigit
      if rest3.isEmpty then
        if ds.isEmpty && fs.isEmpty then none
        else some ((natOfDigits ds : Rat) + (natOfDigits fs : Rat) / ((10 : Rat) ^ fs.length))
      else none
    else none

/-- Parse a signed decimal literal, the grammar accepted by the model of
`float(str)`. -/
def parseFloat (cs : List Char) : Option Rat :=
  match cs with
  | '-' :: rest => (parseUnsigned rest).map (fun q => -q)
  | '+' :: rest => parseUnsigned rest
  | _ => parseUnsigned cs

/-- Python `float(val)`: numeric coercion; `none` models a raised
`ValueError` or `TypeError`. -/
def pyFloat : PyVal → Option Rat
  | PyVal.null => none
  | PyVal.bool b => some (if b then 1 else 0)
  | PyVal.int n => some (n : Rat)
  | PyVal.num q => some q
  | PyVal.str s => parseFloat s.data
  | PyVal.list _ => none
  | PyVal.dict _ => none

/-- Execution result dataclass of scripts/dune_client.py. -/
structure ExecutionResult where
  success : Bool
  execution_id : Option String
  state : String
  rows : List Row
  columns : List String
  row_count : Nat
  error : Option String := none
  execution_time_ms : Option Int := none

/-- Validation result dataclass of scripts/validators.py.  The `details`
payload is a Python dict modelled as an association list. -/
structure ValidationResult where
  passed : Bool
  check_name : String
  message : String
  details : Option (List (String × PyVal)) := none

/-- Look up a key in the `details` dict of a validation result. -/
def detailsLookup (r : ValidationResult) (key : String) : Option PyVal :=
  match r.details with
  | some d => List.lookup key d
  | none => none

/-- Python f-string rendering of an optional string (Python prints `None`). -/
def optStr : Option String → String
  | some s => s
  | none => "None"

/-- Check `validate_execution_success` of scripts/validators.py. -/
def validate_execution_success (result : ExecutionResult) : ValidationResult :=
  if result.success then
    { passed := true
      check_name := "execution_success"
      message := "Query executed successfully"
      details := some [("state", PyVal.str result.state),
                       ("execution_id", match result.execution_id with
                         | some s => PyVal.str s
                         | none => PyVal.null)] }
  else
    let e := optStr result.error
    { passed := false
      check_name := "execution_success"
      message := s!"Query execution failed: {e}"
      details := some [("state", PyVal.str result.state),
                       ("error", match result.error with
                         | some s => PyVal.str s
                         | none => PyVal.null)] }

/-- Check `validate_non_empty` of scripts/validators.py. -/
def validate_non_empty (result : ExecutionResult) : ValidationResult :=
  if result.row_count > 0 then
    let rc := result.row_count
    { passed := true
      check_name := "non_empty"
      message := s!"Query returned {rc} rows"
      details := some [("row_count", PyVal.int rc)] }
  else
    { passed := false
      check_name := "non_empty"
      message := "Query returned no rows"
      details := some [("row_count", PyVal.int 0)] }

/-- Check `validate_min_rows` of scripts/validators.py. -/
def validate_min_rows (result : ExecutionResult) (min_rows : Nat) : ValidationResult :=
  let rc := result.row_count
  if result.row_count ≥ min_rows then
    { passed := true
      check_name := "min_rows"
      message := s!"Row count {rc} >= minimum {min_rows}"
      details := some [("row_count", PyVal.int rc), ("min_rows", PyVal.int min_rows)] }
  else
    { passed := false
      check_name := "min_rows"
      message := s!"Row count {rc} < minimum {min_rows}"
      details := some [("row_count", PyVal.int rc), ("min_rows", PyVal.int min_rows)] }

/-- Check `validate_columns` of scripts/validators.py.  Python builds the
`missing` and `extra` sets with set difference; the model keeps the
first-occurrence order of the deduplicated source lists, which has the same
elements and the same emptiness. -/
def validate_columns (result : ExecutionResult) (expected_columns : List String)
    (strict : Bool := false) : ValidationResult :=
  let missing := (expected_columns.eraseDups).filter (fun c => !(result.columns.contains c))
  let extra := if strict then (result.columns.eraseDups).filter (fun c => !(expected_columns.contains c)) else []
  if missing.isEmpty && extra.isEmpty then
    let n := expected_columns.length
    { passed := true
      check_name := "columns"
      message := s!"All {n} expected columns present"
      details := some [("expected", PyVal.list (expected_columns.map PyVal.str)),
                       ("actual", PyVal.list (result.columns.map PyVal.str))] }
  else
    let issues :=
      (if missing.isEmpty then [] else [s!"missing: {missing}"]) ++
      (if extra.isEmpty then [] else [s!"extra: {extra}"])
    let issuesStr := String.intercalate "; " issues
    { passed := false
      check_name := "columns"
      message := s!"Column mismatch: {issuesStr}"
      details := some [("expected", PyVal.list (expected_columns.map PyVal.str)),
                       ("actual", PyVal.list (result.columns.map PyVal.str)),
                       ("missing", PyVal.list (missing.map PyVal.str)),
                       ("extra", if strict then PyVal.list (extra.map PyVal.str) else PyVal.null)] }

/-- Non-null values of one column, in row order: the list comprehension
`[row.get(column) for row in result.rows if row.get(column) is not None]`. -/
def range_values (result : ExecutionResult) (column : String) : List PyVal :=
  (result.rows.map (fun row => rowGet row column)).filter (fun v => !(isNull v))

/-- One entry of the `violations` list built by `validate_value_in_range`. -/
structure RangeViolation where
  row : Nat
  value : PyVal
  issue : String

/-- Violations contributed by a single value at index `i`: coercion failure
counts as a "not numeric" violation, and an out-of-bound value counts as one
violation per violated bound, exactly as in the source loop body. -/
def violationsFor (min_value max_value : Option Rat) (i : Nat) (val : PyVal) : List RangeViolation :=
  match pyFloat val with
  | some num_val =>
    (match min_value with
     | some m => if num_val < m then [{ row := i, value := val, issue := s!"< {m}" }] else []
     | none => []) ++
    (match max_value with
     | some m => if num_val > m then [{ row := i, value := val, issue := s!"> {m}" }] else []
     | none => [])
  | none => [{ row := i, value := val, issue := "not numeric" }]

/-- The `for i, val in enumerate(values)` loop of `validate_value_in_range`,
accumulating violations with an explicit running index. -/
def collectViolations (min_value max_value : Option Rat) : Nat → List PyVal → List RangeViolation
  | _, [] => []
  | i, v :: vs => violationsFor min_value max_value i v ++ collectViolations min_value max_value (i + 1) vs

/-- Python `min` over a nonempty list (the default is never used by callers). -/
def listMin : List Rat → Rat
  | [] => 0
  | q :: qs => qs.foldl min q

/-- Python `max` over a nonempty list (the default is never used by callers). -/
def listMax : List Rat → Rat
  | [] => 0
  | q :: qs => qs.foldl max q

/-- Render an optional number into a details dict (`None` becomes null). -/
def optRatPy : Option Rat → PyVal
  | some q => PyVal.num q
  | none => PyVal.null

/-- Render a violation record as the dict Python appends to `violations`. -/
def violationPy (v : RangeViolation) : PyVal :=
  PyVal.dict [("row", PyVal.int v.row), ("value", v.value), ("issue", PyVal.str v.issue)]

/-- Check `validate_value_in_range` of scripts/validators.py. -/
def validate_value_in_range (result : ExecutionResult) (column : String)
    (min_value : Option Rat := none) (max_value : Option Rat := none) : ValidationResult :=
  if !(result.columns.contains column) then
    { passed := false
      check_name := "value_range"
      message := s!"Column \x27{column}\x27 not found in results"
      details := some [("column", PyVal.str column),
                       ("available_columns", PyVal.list (result.columns.map PyVal.str))] }
  else
    let values := range_values result column
    if values.isEmpty then
      { passed := true
        check_name := "value_range"
        message := s!"Column \x27{column}\x27 has no non-null values to check"
        details := some [("column", PyVal.str column), ("value_count", PyVal.int 0)] }
    else
      let violations := collectViolations min_value max_value 0 values
      if violations.isEmpty then
        let qs := values.filterMap pyFloat
        let n := values.length
        { passed := true
          check_name := "value_range"
          message := s!"All {n} values in \x27{column}\x27 within range"
          details := some [("column", PyVal.str column),
                           ("value_count", PyVal.int values.length),
                           ("actual_min", PyVal.num (listMin qs)),
                           ("actual_max", PyVal.num (listMax qs)),
                           ("expected_min", optRatPy min_value),
                           ("expected_max", optRatPy max_value)] }
      else
        let nv := violations.length
        { passed := false
          check_name := "value_range"
          message := s!"{nv} values in \x27{column}\x27 out of range"
          details := some [("column", PyVal.str column),
                           ("violations", PyVal.list ((violations.take 10).map violationPy)),
                           ("total_violations", PyVal.int violations.length),
                           ("expected_min", optRatPy min_value),
                           ("expected_max", optRatPy max_value)] }

/-- The `null_counts` dict built by `validate_no_nulls`: per requested column,
`-1` marks a missing column and a positive count marks nulls; columns present
with zero nulls are not recorded. -/
def nullCounts (result : ExecutionResult) (columns : List String) : List (String × Int) :=
  columns.foldl
    (fun acc col =>
      if !(result.columns.contains col) then acc ++ [(col, -1)]
      else
        let n := (result.rows.filter (fun row => isNull (rowGet row col))).length
        if n > 0 then acc ++ [(col, (n : Int))] else acc)
    []

/-- Check `validate_no_nulls` of scripts/validators.py. -/
def validate_no_nulls (result : ExecutionResult) (columns : List String) : ValidationResult :=
  let null_counts := nullCounts result columns
  if null_counts.isEmpty then
    let n := columns.length
    { passed := true
      check_name := "no_nulls"
      message := s!"No null values in {n} checked columns"
      details := some [("columns", PyVal.list (columns.map PyVal.str))] }
  else
    let missing_cols := (null_counts.filter (fun kv => kv.2 = -1)).map (fun kv => kv.1)
    let null_cols := null_counts.filter (fun kv => kv.2 > 0)
    let issues :=
      (if missing_cols.isEmpty then [] else [s!"missing columns: {missing_cols}"]) ++
      (if null_cols.isEmpty then [] else ["null values"])
    let issuesStr := String.intercalate "; " issues
    { passed := false
      check_name := "no_nulls"
      message := s!"Null check failed: {issuesStr}"
      details := some [("missing_columns", PyVal.list (missing_cols.map PyVal.str)),
                       ("null_counts", PyVal.dict (null_cols.map (fun kv => (kv.1, PyVal.int kv.2))))] }

/-- Python truthiness of an optional list argument (`None` and `[]` are falsy). -/
def truthyList {α : Type} : Option (List α) → Bool
  | none => false
  | some l => !l.isEmpty

/-- Composer `run_all_validations` of scripts/validators.py, mirroring the
sequential appends of the source. -/
def run_all_validations (result : ExecutionResult)
    (expected_columns : Option (List String) := none)
    (min_rows : Nat := 1)
    (value_ranges : Option (List (String × Option Rat × Option Rat)) := none)
    (non_null_columns : Option (List String) := none) : List ValidationResult :=
  let validations := [validate_execution_success result]
  let validations := validations ++ [validate_min_rows result min_rows]
  let validations := validations ++
    (if truthyList expected_columns then [validate_columns result (expected_columns.getD []) false] else [])
  let validations := validations ++
    (if truthyList value_ranges then
      (value_ranges.getD []).map (fun cr => validate_value_in_range result cr.1 cr.2.1 cr.2.2)
     else [])
  let validations := validations ++
    (if truthyList non_null_columns then [validate_no_nulls result (non_null_columns.getD [])] else [])
  validations

/-- Fields of the dune-client SDK response that `execute_sql` reads:
`result.result.rows` (absent when `result.result` is falsy), the execution id,
the state string, and the ended-at timestamp in milliseconds. -/
structure SdkExecutionResponse where
  result_rows : Option (List Row)
  execution_id : String
  state : String
  ended_ms : Option Int

/-- Function `execute_sql` of scripts/dune_client.py.  The remote call
`client.run_sql` is the argument: `Except.ok` is a returned response and
`Except.error` a raised exception with its message, which the source converts
into a failed `ExecutionResult`. -/
def execute_sql (run_sql_result : Except String SdkExecutionResponse) : ExecutionResult :=
  match run_sql_result with
  | Except.ok result =>
    let rows := match result.result_rows with
      | some rs => rs
      | none => []
    let columns := match rows with
      | [] => []
      | row :: _ => row.map (fun kv => kv.1)
    { success := true
      execution_id := some result.execution_id
      state := result.state
      rows := rows
      columns := columns
      row_count := rows.length
      error := none
      execution_time_ms := result.ended_ms }
  | Except.error e =>
    { success := false
      execution_id := none
      state := "FAILED"
      rows := []
      columns := []
      row_count := 0
      error := some e
      execution_time_ms := none }

/-- One entry of queries/registry.json, restricted to the fields the smoke
pipeline reads. -/
structure QueryInfo where
  name : String
  smoke_test : Option String
  dune_query_id : Option Int
  architecture : Option String

/-- The registry dict: its "queries" list. -/
structure Registry where
  queries : List QueryInfo

/-- Function `get_query_info` of scripts/smoke_runner.py: first entry with the
given name. -/
def get_query_info (registry : Registry) (name : String) : Option QueryInfo :=
  registry.queries.find? (fun q => q.name == name)

/-- Python truthiness of an optional string (`None` and `""` are falsy). -/
def truthyStr : Option String → Bool
  | none => false
  | some s => !(s == "")

/-- The `id_map` built by `substitute_query_ids`: name/id pairs of the entries
whose `dune_query_id` is truthy, in registry order. -/
def idMap (registry : Registry) : List (String × Int) :=
  registry.queries.foldl
    (fun m q =>
      match q.dune_query_id with
      | some n => if n == 0 then m else m ++ [(q.name, n)]
      | none => m)
    []

/-- Python dict lookup where later insertions win, applied to the id map. -/
def lookupLast (key : String) (m : List (String × Int)) : Option Int :=
  m.foldl (fun acc kv => if kv.1 == key then some kv.2 else acc) none

/-- Id of a named query in the id map of the registry. -/
def idMapLookup (registry : Registry) (name : String) : Option Int :=
  lookupLast name (idMap registry)

/-- The literal placeholder pattern `query_<BASE_QUERY_ID>` of the
`re.sub` call in `substitute_query_ids`. -/
def PH : List Char := "query_<BASE_QUERY_ID>".data

/-- The ten decimal digit characters. -/
def digitChars : List Char := ['0', '1', '2', '3', '4', '5', '6', '7', '8', '9']

/-- Decimal digit character of `n % 10`. -/
def digitChar (n : Nat) : Char := digitChars.getD (n % 10) '0'

/-- Decimal digit characters of a natural number, most significant first,
with explicit fuel so the definition is structural; `natChars` supplies
enough fuel. -/
def natCharsF : Nat → Nat → List Char
  | 0, n => [digitChar (n % 10)]
  | f + 1, n => if n < 10 then [digitChar n] else natCharsF f (n / 10) ++ [digitChar (n % 10)]

/-- Python `str(n)` for a natural number. -/
def natChars (n : Nat) : List Char := natCharsF n n

/-- Python `str(i)` for an integer. -/
def intChars (i : Int) : List Char :=
  if i < 0 then '-' :: natChars i.natAbs else natChars i.toNat

/-- The replacement text `f"query_{id}"` produced by `replace_placeholder`
when the designated base query has an assigned id. -/
def replacement (qid : Int) : List Char := "query_".data ++ intChars qid

/-- Boolean list-prefix test (needle, haystack). -/
def startsWith : List Char → List Char → Bool
  | [], _ => true
  | _ :: _, [] => false
  | p :: ps, c :: cs => p == c && startsWith ps cs

/-- Leftmost non-overlapping replace-all of the placeholder `PH` by `rep`,
the semantics of `re.sub` with a literal pattern.  The fuel argument makes
the scan structural; `subst` supplies enough fuel (one unit per character). -/
def substFuel (rep : List Char) : Nat → List Char → List Char
  | _, [] => []
  | 0, l => l
  | f + 1, c :: cs =>
    if startsWith PH (c :: cs) then rep ++ substFuel rep f (List.drop PH.length (c :: cs))
    else c :: substFuel rep f cs

/-- Replace every occurrence of `PH` in `l` by `rep`, scanning left to right. -/
def subst (rep : List Char) (l : List Char) : List Char := substFuel rep l.length l

/-- The name hardcoded in `replace_placeholder` as the designated base query. -/
def baseQueryName : String := "bitcoin_tx_features_daily"

/-- Function `substitute_query_ids` of scripts/smoke_runner.py: every match of
the literal pattern is rewritten by `replace_placeholder`, which yields
`query_<id>` when the designated base query has a truthy id in the map and
the untouched placeholder text otherwise. -/
def substitute_query_ids (sql : List Char) (registry : Registry) : List Char :=
  match idMapLookup registry baseQueryName with
  | some qid => subst (replacement qid) sql
  | none => subst PH sql

/-- Does the placeholder pattern occur anywhere in the text? -/
def hasOcc : List Char → Bool
  | [] => false
  | c :: cs => startsWith PH (c :: cs) || hasOcc cs

/-- Generic substring test (needle, haystack). -/
def containsSub (needle : List Char) : List Char → Bool
  | [] => needle.isEmpty
  | c :: cs => startsWith needle (c :: cs) || containsSub needle cs

/-- Case-insensitive "mentions" test between two strings. -/
def mentions (s phrase : String) : Bool :=
  containsSub (phrase.data.map Char.toLower) (s.data.map Char.toLower)

/-- A raised Python exception: `FileNotFoundError` is distinguished because
the orchestrator has a dedicated handler for it. -/
inductive PyErr where
  | fileNotFound (msg : String)
  | other (msg : String)

/-- External collaborators of the orchestrator: the loaded registry snapshot,
the smoke-test SQL file loader (`load_smoke_test_sql`), and the remote
execution client (`execute_sql` applied to the remote backend). -/
structure Env where
  registry : Registry
  loadFile : String → Except PyErr (List Char)
  execute : List Char → Nat → Except PyErr ExecutionResult

/-- Smoke test result dataclass of scripts/smoke_runner.py. -/
structure SmokeTestResult where
  name : String
  success : Bool
  execution_result : Option ExecutionResult
  validations : List ValidationResult
  error : Option String := none

/-- Outcome shape of the two `except` handlers of `run_smoke_test`:
`FileNotFoundError` keeps its message, any other exception gets the
"Unexpected error" context. -/
def caughtResult (name : String) (e : PyErr) : SmokeTestResult :=
  match e with
  | PyErr.fileNotFound m =>
    { name := name, success := false, execution_result := none, validations := [], error := some m }
  | PyErr.other m =>
    { name := name, success := false, execution_result := none, validations := [],
      error := some s!"Unexpected error: {m}" }

/-- Function `run_smoke_test` of scripts/smoke_runner.py, instrumented with a
count of remote execution attempts (second component) so that "no execution
attempted" is provable. -/
def run_smoke_testT (env : Env) (name : String) (timeout_seconds : Nat) : SmokeTestResult × Nat :=
  match get_query_info env.registry name with
  | none =>
    ({ name := name, success := false, execution_result := none, validations := [],
       error := some s!"Query \x27{name}\x27 not found in registry" }, 0)
  | some query_info =>
    match query_info.smoke_test with
    | none =>
      ({ name := name, success := false, execution_result := none, validations := [],
         error := some s!"No smoke test defined for query \x27{name}\x27" }, 0)
    | some smoke_test_path =>
      if smoke_test_path = "" then
        ({ name := name, success := false, execution_result := none, validations := [],
           error := some s!"No smoke test defined for query \x27{name}\x27" }, 0)
      else
        match env.loadFile smoke_test_path with
        | Except.error e => (caughtResult name e, 0)
        | Except.ok sql =>
          let sql2 := substitute_query_ids sql env.registry
          match env.execute sql2 timeout_seconds with
          | Except.error e => (caughtResult name e, 1)
          | Except.ok result =>
            let validations := [validate_execution_success result, validate_non_empty result]
            let all_passed := validations.all (fun v => v.passed)
            ({ name := name, success := all_passed, execution_result := some result,
               validations := validations, error := none }, 1)

/-- Function `run_smoke_test` of scripts/smoke_runner.py. -/
def run_smoke_test (env : Env) (name : String) (timeout_seconds : Nat) : SmokeTestResult :=
  (run_smoke_testT env name timeout_seconds).1

/-- The registry loop of `run_all_smoke_tests`: skip entries not matching a
truthy architecture filter, skip entries without a truthy smoke test path,
run the orchestrator for the rest in order. -/
def runAllGo (env : Env) (architecture : Option String) (timeout_seconds : Nat) :
    List QueryInfo → List SmokeTestResult
  | [] => []
  | q :: qs =>
    if truthyStr architecture && !(q.architecture == architecture) then
      runAllGo env architecture timeout_seconds qs
    else if !(truthyStr q.smoke_test) then
      runAllGo env architecture timeout_seconds qs
    else
      run_smoke_test env q.name timeout_seconds :: runAllGo env architecture timeout_seconds qs

/-- Function `run_all_smoke_tests` of scripts/smoke_runner.py. -/
def run_all_smoke_tests (env : Env) (architecture : Option String) (timeout_seconds : Nat) :
    List SmokeTestResult :=
  runAllGo env architecture timeout_seconds env.registry.queries

/-- Concrete execution result used by witnesses: a successful two-row result. -/
def resOk : ExecutionResult :=
  { success := true
    execution_id := some "exec-1"
    state := "QUERY_STATE_COMPLETED"
    rows := [[("x", PyVal.int 5)], [("x", PyVal.int 7)]]
    columns := ["x"]
    row_count := 2 }

/-- Concrete execution result used by the value-in-range witness: rows
`[{x:5},{x:-1},{x:"n/a"}]`. -/
def resRange : ExecutionResult :=
  { success := true
    execution_id := some "exec-2"
    state := "QUERY_STATE_COMPLETED"
    rows := [[("x", PyVal.int 5)], [("x", PyVal.int (-1))], [("x", PyVal.str "n/a")]]
    columns := ["x"]
    row_count := 3 }

/-- Registry entry with a smoke test and an assigned id. -/
def qiAlpha : QueryInfo :=
  { name := "alpha", smoke_test := some "queries/smoke/alpha.sql",
    dune_query_id := some 77, architecture := some "v2" }

/-- Registry entry without a smoke test. -/
def qiBeta : QueryInfo :=
  { name := "beta", smoke_test := none, dune_query_id := none, architecture := some "legacy" }

/-- Registry entry with a smoke test and no assigned id. -/
def qiGamma : QueryInfo :=
  { name := "gamma", smoke_test := some "queries/smoke/gamma.sql",
    dune_query_id := none, architecture := some "v2" }

/-- The designated base query entry, with an assigned id. -/
def qiBase : QueryInfo :=
  { name := "bitcoin_tx_features_daily", smoke_test := some "queries/smoke/base.sql",
    dune_query_id := some 123, architecture := some "v2" }

/-- Concrete registry used by witnesses. -/
def regMain : Registry := { queries := [qiAlpha, qiBeta, qiGamma, qiBase] }

/-- Concrete registry of three entries of which two declare smoke tests. -/
def regThree : Registry := { queries := [qiAlpha, qiBeta, qiGamma] }

/-- Environment whose collaborators always succeed. -/
def envOk : Env :=
  { registry := regMain
    loadFile := fun _ => Except.ok "SELECT 1".data
    execute := fun _ _ => Except.ok resOk }

/-- Environment whose file loader raises a generic exception. -/
def envBoom : Env :=
  { registry := regMain
    loadFile := fun _ => Except.error (PyErr.other "boom")
    execute := fun _ _ => Except.ok resOk }

/-- Environment over the three-entry registry. -/
def envThree : Env :=
  { registry := regThree
    loadFile := fun _ => Except.ok "SELECT 1".data
    execute := fun _ _ => Except.ok resOk }

/-- The tail of the placeholder pattern after its initial `q`. -/
def PHtail : List Char := "uery_<BASE_QUERY_ID>".data

/-- The tail of the replacement text after its initial `q`. -/
def repTail (qid : Int) : List Char := "uery_".data ++ intChars qid

/-- The `rows` read by `execute_sql` from the SDK response (empty when
`result.result` is falsy). -/
def sdkRows (resp : SdkExecutionResponse) : List Row :=
  match resp.result_rows with
  | some rs => rs
  | none => []

/-- SDK response whose only row is an empty dict: the counterexample input
for the columns-empty-iff-rows-empty invariant. -/
def sdkEmptyRowResp : SdkExecutionResponse :=
  { result_rows := some [([] : Row)]
    execution_id := "exec-3"
    state := "QUERY_STATE_COMPLETED"
    ended_ms := none }

/-- SDK response with one single-key row, used by the C8 witness. -/
def sdkOkResp : SdkExecutionResponse :=
  { result_rows := some [[("a", PyVal.int 1)]]
    execution_id := "exec-4"
    state := "QUERY_STATE_COMPLETED"
    ended_ms := none }

/-- SQL tail placed after the placeholder in the C6 witness text. -/
def phRest : List Char := " AND 1".data

/-- SQL text starting with the placeholder, for the C6 witness. -/
def sqlPH : List Char := PH ++ phRest

/-- A value passes the range check: it is numerically coercible and violates
neither configured bound. -/
def goodVal (min_value max_value : Option Rat) (v : PyVal) : Prop :=
  ∃ q, pyFloat v = some q
    ∧ (∀ m, min_value = some m → ¬ q < m)
    ∧ (∀ m, max_value = some m → ¬ q > m)

theorem PH_cons : PH = 'q' :: PHtail := rfl

theorem replacement_cons (qid : Int) : replacement qid = 'q' :: repTail qid := rfl

theorem startsWith_of_ne_q {c : Char} (hc : c ≠ 'q') (cs : List Char) :
    startsWith PH (c :: cs) = false := by
  rw [PH_cons]
  show (('q' == c) && startsWith PHtail cs) = false
  rw [beq_eq_false_iff_ne.mpr (fun h => hc h.symm), Bool.false_and]

theorem startsWith_append_self : ∀ (p t : List Char), startsWith p (p ++ t) = true
  | [], _ => rfl
  | c :: ps, t => by
    show ((c == c) && startsWith ps (ps ++ t)) = true
    rw [beq_self_eq_true, Bool.true_and, startsWith_append_self ps t]

theorem startsWith_eq_append : ∀ (p l : List Char), startsWith p l = true →
    l = p ++ List.drop p.length l
  | [], l, _ => rfl
  | c :: ps, [], h => by simp [startsWith] at h
  | c :: ps, x :: xs, h => by
    have h' : ((c == x) && startsWith ps xs) = true := h
    rw [Bool.and_eq_true] at h'
    have hcx : c = x := eq_of_beq h'.1
    have := startsWith_eq_append ps xs h'.2
    simp only [List.length_cons, List.drop_succ_cons]
    rw [hcx, List.cons_append]
    exact congrArg (x :: ·) this

theorem substFuel_congr (rep : List Char) :
    ∀ (f g : Nat) (l : List Char), l.length ≤ f → l.length ≤ g →
      substFuel rep f l = substFuel rep g l := by
  intro f
  induction f with
  | zero =>
    intro g l hf _
    have hl : l = [] := List.eq_nil_of_length_eq_zero (Nat.le_zero.mp hf)
    subst hl
    cases g <;> rfl
  | succ f ih =>
    intro g l hf hg
    cases l with
    | nil => cases g <;> rfl
    | cons c cs =>
      obtain ⟨g', rfl⟩ : ∃ g', g = g' + 1 := by
        cases g with
        | zero => simp at hg
        | succ g' => exact ⟨g', rfl⟩
      show (if startsWith PH (c :: cs) then
              rep ++ substFuel rep f (List.drop PH.length (c :: cs))
            else c :: substFuel rep f cs) =
           (if startsWith PH (c :: cs) then
              rep ++ substFuel rep g' (List.drop PH.length (c :: cs))
            else c :: substFuel rep g' cs)
      have hlen : (List.drop PH.length (c :: cs)).length ≤ cs.length := by
        rw [List.length_drop]
        simp only [List.length_cons]
        have : 0 < PH.length := by decide
        omega
      have h1 : cs.length ≤ f := by simpa using hf
      have h2 : cs.length ≤ g' := by simpa using hg
      split
      · exact congrArg (rep ++ ·) (ih _ _ (le_trans hlen h1) (le_trans hlen h2))
      · exact congrArg (c :: ·) (ih _ _ h1 h2)

theorem subst_nil (rep : List Char) : subst rep [] = [] := rfl

theorem subst_cons (rep : List Char) (c : Char) (cs : List Char) :
    subst rep (c :: cs) =
      if startsWith PH (c :: cs) then rep ++ subst rep (List.drop PH.length (c :: cs))
      else c :: subst rep cs := by
  show (if startsWith PH (c :: cs) then
          rep ++ substFuel rep cs.length (List.drop PH.length (c :: cs))
        else c :: substFuel rep cs.length cs) = _
  have hlen : (List.drop PH.length (c :: cs)).length ≤ cs.length := by
    rw [List.length_drop]
    simp only [List.length_cons]
    have : 0 < PH.length := by decide
    omega
  split
  · exact congrArg (rep ++ ·) (substFuel_congr rep _ _ _ hlen (le_refl _))
  · rfl

theorem subst_of_hasOcc_false (rep : List Char) :
    ∀ (n : Nat) (l : List Char), l.length ≤ n → hasOcc l = false → subst rep l = l := by
  intro n
  induction n with
  | zero =>
    intro l hn _
    have hl : l = [] := List.eq_nil_of_length_eq_zero (Nat.le_zero.mp hn)
    subst hl
    rfl
  | succ n ih =>
    intro l hn h
    cases l with
    | nil => rfl
    | cons c cs =>
      have h' : (startsWith PH (c :: cs) || hasOcc cs) = false := h
      rw [Bool.or_eq_false_iff] at h'
      rw [subst_cons, h'.1]
      simp only [Bool.false_eq_true, if_false]
      exact congrArg (c :: ·) (ih cs (by simpa using hn) h'.2)

theorem subst_PH_id : ∀ (n : Nat) (l : List Char), l.length ≤ n → subst PH l = l := by
  intro n
  induction n with
  | zero =>
    intro l hn
    have hl : l = [] := List.eq_nil_of_length_eq_zero (Nat.le_zero.mp hn)
    subst hl
    rfl
  | succ n ih =>
    intro l hn
    cases l with
    | nil => rfl
    | cons c cs =>
      rw [subst_cons]
      split
      · next hocc =>
        have hdec := startsWith_eq_append PH (c :: cs) hocc
        have hlen : (List.drop PH.length (c :: cs)).length ≤ n := by
          rw [List.length_drop]
          simp only [List.length_cons] at hn ⊢
          have : 0 < PH.length := by decide
          omega
        rw [ih _ hlen]
        exact hdec.symm
      · exact congrArg (c :: ·) (ih cs (by simpa using hn))

theorem digitChar_ne (n : Nat) : digitChar n ≠ 'q' ∧ digitChar n ≠ '<' := by
  have h : n % 10 < 10 := Nat.mod_lt _ (by norm_num)
  unfold digitChar
  set k := n % 10 with hk
  interval_cases k <;> refine ⟨by decide, by decide⟩

theorem natCharsF_mem : ∀ (f n : Nat) (c : Char), c ∈ natCharsF f n → ∃ k, c = digitChar k := by
  intro f
  induction f with
  | zero =>
    intro n c hc
    simp only [natCharsF, List.mem_singleton] at hc
    exact ⟨n % 10, by simpa [digitChar] using hc⟩
  | succ f ih =>
    intro n c hc
    simp only [natCharsF] at hc
    split at hc
    · exact ⟨n, by simpa using hc⟩
    · rcases List.mem_append.mp hc with h1 | h2
      · exact ih _ _ h1
      · exact ⟨n % 10, by simpa [digitChar] using h2⟩

theorem intChars_ne (i : Int) : ∀ c ∈ intChars i, c ≠ 'q' ∧ c ≠ '<' := by
  intro c hc
  unfold intChars at hc
  split at hc
  · rcases List.mem_cons.mp hc with h | h
    · subst h
      exact ⟨by decide, by decide⟩
    · obtain ⟨k, rfl⟩ := natCharsF_mem _ _ _ h
      exact digitChar_ne k
  · obtain ⟨k, rfl⟩ := natCharsF_mem _ _ _ hc
    exact digitChar_ne k

theorem natCharsF_ne_nil (f n : Nat) : natCharsF f n ≠ [] := by
  cases f with
  | zero => simp [natCharsF]
  | succ f =>
    simp only [natCharsF]
    split
    · simp
    · simp

theorem intChars_ne_nil (i : Int) : intChars i ≠ [] := by
  unfold intChars
  split
  · simp
  · exact natCharsF_ne_nil _ _

theorem repTail_ne_q (qid : Int) : ∀ c ∈ repTail qid, c ≠ 'q' := by
  intro c hc
  unfold repTail at hc
  rcases List.mem_append.mp hc with h | h
  · fin_cases h <;> decide
  · exact (intChars_ne qid c h).1

theorem startsWith_PH_replacement_append (qid : Int) (t : List Char) :
    startsWith PH (replacement qid ++ t) = false := by
  obtain ⟨d, ds, hd⟩ := List.exists_cons_of_ne_nil (intChars_ne_nil qid)
  have hdne : d ≠ '<' := by
    have := intChars_ne qid d (by rw [hd]; exact List.mem_cons_self _ _)
    exact this.2
  unfold replacement
  rw [hd, List.append_assoc]
  show (('<' == d) && startsWith "BASE_QUERY_ID>".data (ds ++ t)) = false
  rw [beq_eq_false_iff_ne.mpr (fun h => hdne h.symm), Bool.false_and]

theorem hasOcc_append_noq : ∀ (a t : List Char), (∀ c ∈ a, c ≠ 'q') →
    hasOcc (a ++ t) = hasOcc t
  | [], _, _ => rfl
  | c :: a', t, h => by
    show (startsWith PH (c :: (a' ++ t)) || hasOcc (a' ++ t)) = hasOcc t
    rw [startsWith_of_ne_q (h c (List.mem_cons_self _ _)) _, Bool.false_or]
    exact hasOcc_append_noq a' t (fun x hx => h x (List.mem_cons_of_mem _ hx))

theorem startsWith_subst {rep : List Char} (hrep : rep.head? = some 'q') :
    ∀ (S : List Char), (∀ c ∈ S, c ≠ 'q') →
      ∀ (xs : List Char), startsWith S (subst rep xs) = true → startsWith S xs = true := by
  obtain ⟨r', rfl⟩ : ∃ r', rep = 'q' :: r' := by
    cases rep with
    | nil => simp at hrep
    | cons a r' =>
      simp only [List.head?] at hrep
      exact ⟨r', by rw [Option.some.injEq] at hrep; rw [hrep]⟩
  intro S
  induction S with
  | nil => intro _ xs _; rfl
  | cons d S' ih =>
    intro hS xs h
    cases xs with
    | nil => simp [subst_nil, startsWith] at h
    | cons c cs =>
      rw [subst_cons] at h
      split at h
      · have h' : ((d == 'q') &&
            startsWith S' (r' ++ subst ('q' :: r') (List.drop PH.length (c :: cs)))) = true := h
        rw [Bool.and_eq_true] at h'
        exact absurd (eq_of_beq h'.1) (hS d (List.mem_cons_self _ _))
      · have h' : ((d == c) && startsWith S' (subst ('q' :: r') cs)) = true := h
        rw [Bool.and_eq_true] at h'
        have h2 := ih (fun x hx => hS x (List.mem_cons_of_mem _ hx)) cs h'.2
        show ((d == c) && startsWith S' cs) = true
        rw [h'.1, h2, Bool.true_and]

theorem PHtail_noq : ∀ c ∈ PHtail, c ≠ 'q' := by decide

theorem kept_preserved {rep : List Char} (hrep : rep.head? = some 'q')
    (c : Char) (cs : List Char) (h : startsWith PH (c :: cs) = false) :
    startsWith PH (c :: subst rep cs) = false := by
  by_contra hcon
  have htrue : startsWith PH (c :: subst rep cs) = true := by
    cases hx : startsWith PH (c :: subst rep cs)
    · exact absurd hx hcon
    · rfl
  rw [PH_cons] at htrue
  have h' : (('q' == c) && startsWith PHtail (subst rep cs)) = true := htrue
  rw [Bool.and_eq_true] at h'
  have h2 := startsWith_subst hrep PHtail PHtail_noq cs h'.2
  rw [PH_cons] at h
  have : (('q' == c) && startsWith PHtail cs) = false := h
  rw [h'.1, h2, Bool.and_true] at this
  exact absurd this (by simp)

theorem repTail_head (qid : Int) : (replacement qid).head? = some 'q' := by
  rw [replacement_cons]
  rfl

theorem hasOcc_subst_replacement (qid : Int) :
    ∀ (n : Nat) (xs : List Char), xs.length ≤ n →
      hasOcc (subst (replacement qid) xs) = false := by
  intro n
  induction n with
  | zero =>
    intro xs hn
    have hl : xs = [] := List.eq_nil_of_length_eq_zero (Nat.le_zero.mp hn)
    subst hl
    rfl
  | succ n ih =>
    intro xs hn
    cases xs with
    | nil => rfl
    | cons c cs =>
      rw [subst_cons]
      split
      · set w := subst (replacement qid) (List.drop PH.length (c :: cs)) with hw
        have hwlen : (List.drop PH.length (c :: cs)).length ≤ n := by
          rw [List.length_drop]
          simp only [List.length_cons] at hn ⊢
          have : 0 < PH.length := by decide
          omega
        have e1 : startsWith PH (replacement qid ++ w) = false :=
          startsWith_PH_replacement_append qid w
        have e2 : hasOcc (repTail qid ++ w) = hasOcc w :=
          hasOcc_append_noq _ _ (repTail_ne_q qid)
        have e3 : hasOcc w = false := ih _ hwlen
        calc hasOcc (replacement qid ++ w)
            = (startsWith PH (replacement qid ++ w) || hasOcc (repTail qid ++ w)) := rfl
          _ = false := by rw [e1, e2, e3, Bool.or_self]
      · next hkept =>
        have hk : startsWith PH (c :: cs) = false := by
          cases hx : startsWith PH (c :: cs)
          · rfl
          · exact absurd hx hkept
        have e1 : startsWith PH (c :: subst (replacement qid) cs) = false :=
          kept_preserved (repTail_head qid) c cs hk
        have e2 : hasOcc (subst (replacement qid) cs) = false := ih cs (by simpa using hn)
        calc hasOcc (c :: subst (replacement qid) cs)
            = (startsWith PH (c :: subst (replacement qid) cs) ||
               hasOcc (subst (replacement qid) cs)) := rfl
          _ = false := by rw [e1, e2, Bool.or_self]

/-- C9: for every execution result, the non-empty check and the min-rows
check with minimum 1 agree: both fail when `row_count = 0`, both pass when
`row_count > 0`, and their `passed` flags are equal. -/
theorem claim_C9 (result : ExecutionResult) :
    (validate_non_empty result).passed = (validate_min_rows result 1).passed
    ∧ (result.row_count = 0 →
        (validate_non_empty result).passed = false ∧ (validate_min_rows result 1).passed = false)
    ∧ (0 < result.row_count →
        (validate_non_empty result).passed = true ∧ (validate_min_rows result 1).passed = true) := by
  by_cases h : 0 < result.row_count
  · have h1 : result.row_count ≥ 1 := h
    refine ⟨?_, ?_, ?_⟩
    · simp [validate_non_empty, validate_min_rows, h, h1]
    · intro h0; omega
    · intro _; exact ⟨by simp [validate_non_empty, h], by simp [validate_min_rows, h1]⟩
  · have h0 : result.row_count = 0 := by omega
    refine ⟨?_, ?_, ?_⟩
    · simp [validate_non_empty, validate_min_rows, h0]
    · intro _
      exact ⟨by simp [validate_non_empty, h0], by simp [validate_min_rows, h0]⟩
    · intro hx; omega

/-- Witness for C9 at a concrete two-row result. -/
theorem claim_C9_witness :
    (validate_non_empty resOk).passed = true ∧ (validate_min_rows resOk 1).passed = true :=
  (claim_C9 resOk).2.2 (by decide)

/-- C4: the composer returns execution-success, then min-rows, then the
configured optional checks in the fixed order, without short-circuiting; the
output length counts every configured check, and with no optional constraints
exactly the two mandatory outcomes are returned. -/
theorem claim_C4 (result : ExecutionResult) (expected_columns : Option (List String))
    (min_rows : Nat) (value_ranges : Option (List (String × Option Rat × Option Rat)))
    (non_null_columns : Option (List String)) :
    run_all_validations result expected_columns min_rows value_ranges non_null_columns =
      [validate_execution_success result, validate_min_rows result min_rows]
        ++ (if truthyList expected_columns then
              [validate_columns result (expected_columns.getD []) false] else [])
        ++ (if truthyList value_ranges then
              (value_ranges.getD []).map
                (fun cr => validate_value_in_range result cr.1 cr.2.1 cr.2.2) else [])
        ++ (if truthyList non_null_columns then
              [validate_no_nulls result (non_null_columns.getD [])] else [])
    ∧ (run_all_validations result expected_columns min_rows value_ranges non_null_columns).length =
        2 + (if truthyList expected_columns then 1 else 0)
          + (if truthyList value_ranges then (value_ranges.getD []).length else 0)
          + (if truthyList non_null_columns then 1 else 0)
    ∧ (expected_columns = none → value_ranges = none → non_null_columns = none →
        run_all_validations result expected_columns min_rows value_ranges non_null_columns =
          [validate_execution_success result, validate_min_rows result min_rows]) := by
  refine ⟨?_, ?_, ?_⟩
  · simp [run_all_validations, List.append_assoc]
  · simp only [run_all_validations]
    split <;> split <;> split <;> simp <;> omega
  · intro h1 h2 h3
    subst h1; subst h2; subst h3
    simp [run_all_validations, truthyList]

/-- Witness for C4: no optional constraints yields exactly the two mandatory
outcomes. -/
theorem claim_C4_witness :
    run_all_validations resOk none 1 none none =
      [validate_execution_success resOk, validate_min_rows resOk 1]
    ∧ (run_all_validations resOk none 1 none none).length = 2 := by
  have h := (claim_C4 resOk none 1 none none).2.2 rfl rfl rfl
  exact ⟨h, by rw [h]; rfl⟩

/-- C8 (amended): every result of `execute_sql` has `row_count = len(rows)`
and `error` populated exactly when `success` is false; `columns` is empty
when `rows` is empty and equals the first row's keys otherwise — so `columns`
may be empty with nonempty `rows` exactly when the first row has no keys,
which is the one corner where the claimed "columns empty iff rows empty"
invariant fails. -/
theorem claim_C8 (b : Except String SdkExecutionResponse) :
    (execute_sql b).row_count = (execute_sql b).rows.length
    ∧ ((execute_sql b).rows = [] → (execute_sql b).columns = [])
    ∧ (∀ row rest, (execute_sql b).rows = row :: rest →
        (execute_sql b).columns = row.map (fun kv => kv.1))
    ∧ ((execute_sql b).error = none ↔ (execute_sql b).success = true) := by
  cases b with
  | error e =>
    refine ⟨rfl, fun _ => rfl, ?_, ?_⟩
    · intro row rest h
      exact absurd h (List.noConfusion)
    · simp [execute_sql]
  | ok resp =>
    have hrows : (execute_sql (Except.ok resp)).rows = sdkRows resp := by
      cases h : resp.result_rows <;> simp [execute_sql, sdkRows, h]
    have hcols : (execute_sql (Except.ok resp)).columns =
        (match sdkRows resp with
         | [] => ([] : List String)
         | row :: _ => row.map (fun kv => kv.1)) := by
      cases h : resp.result_rows <;> simp [execute_sql, sdkRows, h]
    refine ⟨?_, ?_, ?_, ?_⟩
    · cases h : resp.result_rows <;> simp [execute_sql, h]
    · intro h
      rw [hrows] at h
      rw [hcols, h]
    · intro row rest h
      rw [hrows] at h
      rw [hcols, h]
    · simp [execute_sql]

/-- Counterexample for C8 as stated: on a response whose first row has no
keys, `columns` is empty while `rows` is not, refuting "columns is empty iff
rows is empty". -/
theorem claim_C8_counterexample :
    ¬(((execute_sql (Except.ok sdkEmptyRowResp)).columns = []) ↔
      ((execute_sql (Except.ok sdkEmptyRowResp)).rows = [])) := by
  intro h
  have h2 := h.mp rfl
  exact List.cons_ne_nil _ _ (show (([] : Row) :: []) = [] from h2)

/-- Witness for C8 at a concrete successful response. -/
theorem claim_C8_witness :
    (execute_sql (Except.ok sdkOkResp)).row_count = (execute_sql (Except.ok sdkOkResp)).rows.length
    ∧ (execute_sql (Except.ok sdkOkResp)).columns = ["a"]
    ∧ ((execute_sql (Except.ok sdkOkResp)).error = none ↔
        (execute_sql (Except.ok sdkOkResp)).success = true) := by
  have h := claim_C8 (Except.ok sdkOkResp)
  exact ⟨h.1, (h.2.2.1 [("a", PyVal.int 1)] [] rfl).trans rfl, h.2.2.2⟩

/-- C6: placeholder substitution leaves the text unchanged when the
designated base query has no truthy id in the map or when the pattern does
not occur; when the id is assigned, a leading occurrence of the pattern is
rewritten to `query_<id>` and the scan continues behind it, and a
non-matching head character is copied unchanged — together these equations
say every occurrence is replaced and all other text is preserved. -/
theorem claim_C6 (registry : Registry) (sql : List Char) :
    (idMapLookup registry baseQueryName = none → substitute_query_ids sql registry = sql)
    ∧ (hasOcc sql = false → substitute_query_ids sql registry = sql)
    ∧ (∀ qid rest, idMapLookup registry baseQueryName = some qid → sql = PH ++ rest →
        substitute_query_ids sql registry = replacement qid ++ substitute_query_ids rest registry)
    ∧ (∀ c cs, sql = c :: cs → startsWith PH sql = false →
        substitute_query_ids sql registry = c :: substitute_query_ids cs registry) := by
  refine ⟨?_, ?_, ?_, ?_⟩
  · intro h
    unfold substitute_query_ids
    rw [h]
    exact subst_PH_id sql.length sql (le_refl _)
  · intro h
    unfold substitute_query_ids
    cases hl : idMapLookup registry baseQueryName
    · exact subst_of_hasOcc_false PH sql.length sql (le_refl _) h
    · exact subst_of_hasOcc_false _ sql.length sql (le_refl _) h
  · intro qid rest h1 h2
    subst h2
    unfold substitute_query_ids
    rw [h1]
    show subst (replacement qid) (PH ++ rest) = replacement qid ++ subst (replacement qid) rest
    have hsw : startsWith PH ('q' :: (PHtail ++ rest)) = true := startsWith_append_self PH rest
    calc subst (replacement qid) (PH ++ rest)
        = subst (replacement qid) ('q' :: (PHtail ++ rest)) := rfl
      _ = replacement qid ++
            subst (replacement qid) (List.drop PH.length ('q' :: (PHtail ++ rest))) := by
          rw [subst_cons, hsw]
          simp
      _ = replacement qid ++ subst (replacement qid) rest := by
          have hdrop : List.drop PH.length ('q' :: (PHtail ++ rest)) = rest := by
            show List.drop PH.length (PH ++ rest) = rest
            exact List.drop_left PH rest
          rw [hdrop]
  · intro c cs h1 h2
    subst h1
    unfold substitute_query_ids
    cases hl : idMapLookup registry baseQueryName
    · show subst PH (c :: cs) = c :: subst PH cs
      rw [subst_cons, h2]
      simp
    · show subst (replacement _) (c :: cs) = c :: subst (replacement _) cs
      rw [subst_cons, h2]
      simp

/-- Witness for C6: over the concrete registry (base id 123) a placeholder
occurrence becomes `query_123`, and placeholder-free text is unchanged. -/
theorem claim_C6_witness :
    substitute_query_ids sqlPH regMain = "query_123 AND 1".data
    ∧ substitute_query_ids "SELECT 1".data regMain = "SELECT 1".data := by
  have h1 := (claim_C6 regMain sqlPH).2.2.1 123 phRest rfl rfl
  have h2 := (claim_C6 regMain "SELECT 1".data).2.1 rfl
  exact ⟨by rw [h1]; rfl, h2⟩

/-- C10: placeholder substitution is idempotent — when the base id is
unassigned the rewrite is the identity, and when it is assigned the output
contains no further occurrence of the placeholder pattern, so a second pass
changes nothing. -/
theorem claim_C10 (registry : Registry) (sql : List Char) :
    substitute_query_ids (substitute_query_ids sql registry) registry =
      substitute_query_ids sql registry := by
  unfold substitute_query_ids
  cases hl : idMapLookup registry baseQueryName
  · show subst PH (subst PH sql) = subst PH sql
    exact subst_PH_id _ (subst PH sql) (le_refl _)
  · next qid =>
    show subst (replacement qid) (subst (replacement qid) sql) = subst (replacement qid) sql
    exact subst_of_hasOcc_false _ _ _ (le_refl _)
      (hasOcc_subst_replacement qid sql.length sql (le_refl _))

/-- C1: when the registry entry exists, declares a truthy smoke-test path,
and loading and execution both succeed, the orchestrator runs exactly the
execution-success and non-empty checks in that order, and the outcome's
`success` is the conjunction of their `passed` flags. -/
theorem claim_C1 (env : Env) (name : String) (t : Nat) (qi : QueryInfo) (p : String)
    (sql : List Char) (res : ExecutionResult)
    (h1 : get_query_info env.registry name = some qi)
    (h2 : qi.smoke_test = some p)
    (h3 : ¬ p = "")
    (h4 : env.loadFile p = Except.ok sql)
    (h5 : env.execute (substitute_query_ids sql env.registry) t = Except.ok res) :
    run_smoke_test env name t =
      { name := name
        success := (validate_execution_success res).passed && (validate_non_empty res).passed
        execution_result := some res
        validations := [validate_execution_success res, validate_non_empty res]
        error := none } := by
  simp [run_smoke_test, run_smoke_testT, h1, h2, h3, h4, h5]

/-- Witness for C1 at the concrete all-succeeding environment. -/
theorem claim_C1_witness :
    run_smoke_test envOk "alpha" 300 =
      { name := "alpha"
        success := true
        execution_result := some resOk
        validations := [validate_execution_success resOk, validate_non_empty resOk]
        error := none } :=
  claim_C1 envOk "alpha" 300 qiAlpha "queries/smoke/alpha.sql" "SELECT 1".data resOk
    rfl rfl (by decide) rfl rfl

/-- C2: once the orchestrator reaches the try block (entry found, smoke test
declared), every outcome of the file loader and of remote execution — normal
return, `FileNotFoundError`, or any other exception — is converted into a
returned outcome: file-not-found keeps its message, any other exception gets
the "Unexpected error" context, and nothing propagates. -/
theorem claim_C2 (env : Env) (name : String) (t : Nat) (qi : QueryInfo) (p : String)
    (h1 : get_query_info env.registry name = some qi)
    (h2 : qi.smoke_test = some p)
    (h3 : ¬ p = "") :
    (∀ m, env.loadFile p = Except.error (PyErr.fileNotFound m) →
      run_smoke_test env name t =
        { name := name, success := false, execution_result := none, validations := [],
          error := some m })
    ∧ (∀ m, env.loadFile p = Except.error (PyErr.other m) →
      run_smoke_test env name t =
        { name := name, success := false, execution_result := none, validations := [],
          error := some s!"Unexpected error: {m}" })
    ∧ (∀ sql m, env.loadFile p = Except.ok sql →
      env.execute (substitute_query_ids sql env.registry) t = Except.error (PyErr.fileNotFound m) →
      run_smoke_test env name t =
        { name := name, success := false, execution_result := none, validations := [],
          error := some m })
    ∧ (∀ sql m, env.loadFile p = Except.ok sql →
      env.execute (substitute_query_ids sql env.registry) t = Except.error (PyErr.other m) →
      run_smoke_test env name t =
        { name := name, success := false, execution_result := none, validations := [],
          error := some s!"Unexpected error: {m}" })
    ∧ (∀ sql res, env.loadFile p = Except.ok sql →
      env.execute (substitute_query_ids sql env.registry) t = Except.ok res →
      run_smoke_test env name t =
        { name := name
          success := (validate_execution_success res).passed && (validate_non_empty res).passed
          execution_result := some res
          validations := [validate_execution_success res, validate_non_empty res]
          error := none }) := by
  refine ⟨?_, ?_, ?_, ?_, ?_⟩
  · intro m hm
    simp [run_smoke_test, run_smoke_testT, h1, h2, h3, hm, caughtResult]
  · intro m hm
    simp [run_smoke_test, run_smoke_testT, h1, h2, h3, hm, caughtResult]
  · intro sql m hsql hm
    simp [run_smoke_test, run_smoke_testT, h1, h2, h3, hsql, hm, caughtResult]
  · intro sql m hsql hm
    simp [run_smoke_test, run_smoke_testT, h1, h2, h3, hsql, hm, caughtResult]
  · intro sql res hsql hres
    simp [run_smoke_test, run_smoke_testT, h1, h2, h3, hsql, hres]

/-- Witness for C2 at a concrete environment whose loader raises a generic
exception: the outcome carries the "Unexpected error" context. -/
theorem claim_C2_witness :
    run_smoke_test envBoom "alpha" 300 =
      { name := "alpha", success := false, execution_result := none, validations := [],
        error := some "Unexpected error: boom" } :=
  (claim_C2 envBoom "alpha" 300 qiAlpha "queries/smoke/alpha.sql"
    rfl rfl (by decide)).2.1 "boom" rfl

/-- C3: a name absent from the registry yields a failed outcome with no
execution result, no validations, a not-found error, and zero remote
execution attempts; an entry without a truthy smoke-test path yields the
same shape with the no-smoke-test-defined error, likewise without any
execution attempt. -/
theorem claim_C3 (env : Env) (name : String) (t : Nat) :
    (get_query_info env.registry name = none →
      run_smoke_testT env name t =
        ({ name := name, success := false, execution_result := none, validations := [],
           error := some s!"Query \x27{name}\x27 not found in registry" }, 0))
    ∧ (∀ qi, get_query_info env.registry name = some qi →
        (qi.smoke_test = none ∨ qi.smoke_test = some "") →
        run_smoke_testT env name t =
          ({ name := name, success := false, execution_result := none, validations := [],
             error := some s!"No smoke test defined for query \x27{name}\x27" }, 0)) := by
  constructor
  · intro h
    simp [run_smoke_testT, h]
  · intro qi h hsm
    rcases hsm with hsm | hsm <;> simp [run_smoke_testT, h, hsm]

/-- Witness for C3: concrete missing name and concrete entry without a smoke
test, with the case-insensitive "mentions" facts of the claim's wording. -/
theorem claim_C3_witness :
    run_smoke_testT envOk "ghost" 300 =
      ({ name := "ghost", success := false, execution_result := none, validations := [],
         error := some "Query \x27ghost\x27 not found in registry" }, 0)
    ∧ mentions "Query \x27ghost\x27 not found in registry" "not found" = true
    ∧ run_smoke_testT envOk "beta" 300 =
      ({ name := "beta", success := false, execution_result := none, validations := [],
         error := some "No smoke test defined for query \x27beta\x27" }, 0)
    ∧ mentions "No smoke test defined for query \x27beta\x27" "no smoke test defined" = true :=
  ⟨(claim_C3 envOk "ghost" 300).1 rfl, rfl,
   (claim_C3 envOk "beta" 300).2 qiBeta rfl (Or.inl rfl), rfl⟩

/-- C5: the batch runner returns exactly one outcome per registry entry that
passes the architecture filter and declares a truthy smoke-test path, in
registry order; over the concrete three-entry registry with two smoke tests
it returns those two outcomes in order. -/
theorem claim_C5 :
    (∀ (env : Env) (architecture : Option String) (t : Nat),
      run_all_smoke_tests env architecture t =
        (env.registry.queries.filter (fun q =>
            (!truthyStr architecture || (q.architecture == architecture))
              && truthyStr q.smoke_test)).map
          (fun q => run_smoke_test env q.name t))
    ∧ run_all_smoke_tests envThree none 300 =
        [run_smoke_test envThree "alpha" 300, run_smoke_test envThree "gamma" 300] := by
  constructor
  · intro env architecture t
    unfold run_all_smoke_tests
    induction env.registry.queries with
    | nil => rfl
    | cons q qs ih =>
      cases ht : (truthyStr architecture && !(q.architecture == architecture))
      · have hkeep : (!truthyStr architecture || (q.architecture == architecture)) = true := by
          revert ht
          cases truthyStr architecture <;> cases (q.architecture == architecture) <;> simp
        cases hs : truthyStr q.smoke_test
        · simp [runAllGo, ht, hs, ih, hkeep]
        · simp [runAllGo, ht, hs, ih, hkeep]
      · have hskip : ((!truthyStr architecture || (q.architecture == architecture))
            && truthyStr q.smoke_test) = false := by
          revert ht
          cases truthyStr architecture <;> cases (q.architecture == architecture) <;> simp
        simp [runAllGo, ht, ih, hskip]
  · rfl

theorem violationsFor_nil_iff (mn mx : Option Rat) (i : Nat) (v : PyVal) :
    violationsFor mn mx i v = [] ↔ goodVal mn mx v := by
  cases hp : pyFloat v with
  | none => simp [violationsFor, goodVal, hp]
  | some q =>
    simp only [violationsFor, goodVal, hp]
    constructor
    · intro h
      rw [List.append_eq_nil] at h
      obtain ⟨hA, hB⟩ := h
      refine ⟨q, rfl, ?_, ?_⟩
      · intro m hm hlt
        subst hm
        simp [hlt] at hA
      · intro m hm hgt
        subst hm
        simp [hgt] at hB
    · rintro ⟨q', hq', hmin, hmax⟩
      obtain rfl : q = q' := Option.some.inj hq'
      rw [List.append_eq_nil]
      constructor
      · cases mn with
        | none => rfl
        | some m => simp [hmin m rfl]
      · cases mx with
        | none => rfl
        | some m => simp [hmax m rfl]

theorem collectViolations_nil_iff (mn mx : Option Rat) :
    ∀ (i : Nat) (vs : List PyVal),
      collectViolations mn mx i vs = [] ↔ ∀ v ∈ vs, goodVal mn mx v := by
  intro i vs
  induction vs generalizing i with
  | nil => simp [collectViolations]
  | cons v vs ih =>
    simp [collectViolations, List.append_eq_nil, violationsFor_nil_iff, ih (i + 1)]

/-- C7: value-in-range fails with the distinct column-not-found message when
the column is absent; passes with a zero value-count detail when it has no
non-null values; otherwise passes exactly when every non-null value is
numerically coercible and within both configured bounds, and on failure the
details carry at most 10 sample violations plus the total violation count. -/
theorem claim_C7 (result : ExecutionResult) (column : String) (mn mx : Option Rat) :
    (result.columns.contains column = false →
      (validate_value_in_range result column mn mx).passed = false
      ∧ (validate_value_in_range result column mn mx).message =
          s!"Column \x27{column}\x27 not found in results")
    ∧ (result.columns.contains column = true → range_values result column = [] →
      (validate_value_in_range result column mn mx).passed = true
      ∧ detailsLookup (validate_value_in_range result column mn mx) "value_count" =
          some (PyVal.int 0))
    ∧ (result.columns.contains column = true → range_values result column ≠ [] →
      ((validate_value_in_range result column mn mx).passed = true ↔
        ∀ v ∈ range_values result column, goodVal mn mx v)
      ∧ ((validate_value_in_range result column mn mx).passed = false →
        detailsLookup (validate_value_in_range result column mn mx) "violations" =
          some (PyVal.list
            (((collectViolations mn mx 0 (range_values result column)).take 10).map violationPy))
        ∧ ((collectViolations mn mx 0 (range_values result column)).take 10).length ≤ 10
        ∧ detailsLookup (validate_value_in_range result column mn mx) "total_violations" =
          some (PyVal.int (collectViolations mn mx 0 (range_values result column)).length))) := by
  refine ⟨?_, ?_, ?_⟩
  · intro h
    have hmem : column ∉ result.columns := by simpa using h
    have e : validate_value_in_range result column mn mx =
        { passed := false
          check_name := "value_range"
          message := s!"Column \x27{column}\x27 not found in results"
          details := some [("column", PyVal.str column),
                           ("available_columns", PyVal.list (result.columns.map PyVal.str))] } := by
      simp [validate_value_in_range, hmem]
    exact ⟨by rw [e], by rw [e]⟩
  · intro h hv
    have hmem : column ∈ result.columns := by simpa using h
    have hvE : (range_values result column).isEmpty = true := by rw [hv]; rfl
    have e : validate_value_in_range result column mn mx =
        { passed := true
          check_name := "value_range"
          message := s!"Column \x27{column}\x27 has no non-null values to check"
          details := some [("column", PyVal.str column), ("value_count", PyVal.int 0)] } := by
      simp [validate_value_in_range, hmem, hvE]
    exact ⟨by rw [e], by rw [e]; rfl⟩
  · intro h hne
    have hmem : column ∈ result.columns := by simpa using h
    have hvE : (range_values result column).isEmpty = false := by
      cases hx : range_values result column with
      | nil => exact absurd hx hne
      | cons a l => rfl
    cases hviol : (collectViolations mn mx 0 (range_values result column)).isEmpty
    · have hnn : collectViolations mn mx 0 (range_values result column) ≠ [] := by
        intro hcon
        rw [hcon] at hviol
        simp at hviol
      have e : validate_value_in_range result column mn mx =
          { passed := false
            check_name := "value_range"
            message :=
              (fun nv => s!"{nv} values in \x27{column}\x27 out of range")
                (collectViolations mn mx 0 (range_values result column)).length
            details := some [("column", PyVal.str column),
                             ("violations", PyVal.list
                               (((collectViolations mn mx 0 (range_values result column)).take 10).map
                                 violationPy)),
                             ("total_violations",
                               PyVal.int (collectViolations mn mx 0 (range_values result column)).length),
                             ("expected_min", optRatPy mn),
                             ("expected_max", optRatPy mx)] } := by
        simp [validate_value_in_range, hmem, hvE, hviol]
      constructor
      · rw [e]
        exact iff_of_false (by simp)
          (fun hall => hnn ((collectViolations_nil_iff mn mx 0 _).mpr hall))
      · intro _
        rw [e]
        refine ⟨rfl, ?_, rfl⟩
        rw [List.length_take]
        exact Nat.min_le_left _ _
    · have hnil : collectViolations mn mx 0 (range_values result column) = [] := by
        cases hy : collectViolations mn mx 0 (range_values result column) with
        | nil => rfl
        | cons a l => rw [hy] at hviol; simp at hviol
      have e : (validate_value_in_range result column mn mx).passed = true := by
        simp [validate_value_in_range, hmem, hvE, hviol]
      constructor
      · rw [e]
        exact iff_of_true rfl ((collectViolations_nil_iff mn mx 0 _).mp hnil)
      · intro hfalse
        rw [e] at hfalse
        cases hfalse

/-- Witness for C7: over rows `[{x:5},{x:-1},{x:"n/a"}]` with bounds 0 and
10, the check fails with exactly 2 total violations. -/
theorem claim_C7_witness :
    (validate_value_in_range resRange "x" (some 0) (some 10)).passed = false
    ∧ detailsLookup (validate_value_in_range resRange "x" (some 0) (some 10)) "total_violations" =
        some (PyVal.int 2) := by
  have hne : range_values resRange "x" ≠ [] := by
    rw [show range_values resRange "x" = [PyVal.int 5, PyVal.int (-1), PyVal.str "n/a"] from rfl]
    simp
  have h := (claim_C7 resRange "x" (some 0) (some 10)).2.2 rfl hne
  have hp : (validate_value_in_range resRange "x" (some 0) (some 10)).passed = false := by rfl
  exact ⟨hp, ((h.2 hp).2.2).trans rfl⟩
